import Mathlib

/-
Verification development for the faraday-spectra repository
(faraday_spectra/generate_spectra.py).

The single function `generate_spectra(freqs, util_RM, n_spectra, min_phi,
max_phi, phi_sampling, max_noise, phi_padding, complex_fraction,
drop_channels)` is shallowly embedded below.  Randomness is made explicit:
every call numpy makes to its global generator is modelled by a field of the
`Draws` structure, so properties quantified over `Draws` hold for every
sequence of random draws.  The external collaborators (the `util_RM` module
passed by the caller, and scipy's `gaussian_filter1d`) are modelled as opaque
function parameters, exactly as the spec treats them.  The float value
`numpy.nan` used to blank dropped channels is modelled by `Option ℂ`
(`none` = the not-a-valid-number sentinel); since every non-blanked value in
this pipeline is finite and finite * nan = nan in IEEE arithmetic, this is
observationally faithful.
-/

namespace FaradaySpectra

/-- Configuration of one call to `generate_spectra`: the keyword arguments of
the Python function.  `freqs` is the caller-supplied frequency list;
`n_spectra` is the batch size; the remaining fields mirror the Python
parameters of the same names. -/
structure Config where
  freqs : List ℝ
  n_spectra : ℕ
  min_phi : ℝ
  max_phi : ℝ
  phi_sampling : ℕ
  max_noise : ℝ
  phi_padding : ℝ
  complex_fraction : ℝ
  drop_channels : ℝ

/-- Explicit model of the random draws consumed by one call, one field per
numpy sampling statement:
`depth i p` is the uniform draw on `[min_phi+phi_padding, max_phi-phi_padding)`
for screen `p` of example `i`; `ampDraw i p` the uniform `[0,1)` amplitude
draw; `simpleDraw i` the Bernoulli(1 - complex_fraction) draw cast to bool;
`phase i p` the uniform `[-pi/2, pi/2)` phase draw; `sigma i` the uniform
`[0, max_noise)` noise-scale draw; `noiseDraw i f` the Gaussian noise draw of
scale `sigma i` for channel `f`; `mask i f` the Bernoulli(drop_channels)
channel-drop draw. -/
structure Draws where
  depth : ℕ → Fin 2 → ℝ
  ampDraw : ℕ → Fin 2 → ℝ
  simpleDraw : ℕ → Bool
  phase : ℕ → Fin 2 → ℝ
  sigma : ℕ → ℝ
  noiseDraw : ℕ → ℕ → ℝ
  mask : ℕ → ℕ → Bool

/-- Support constraint on the channel-mask draws: a Bernoulli(p) trial can
yield `false` (keep the channel) only when its success probability
`drop_channels` is below 1.  This captures the distributional fact that
`numpy.random.binomial(1, 1.0)` always returns 1. -/
def maskSupport (cfg : Config) (dr : Draws) : Prop :=
  ∀ i f, dr.mask i f = false → cfg.drop_channels < 1

/-- Model of `numpy.linspace(a, b, n)`: `n` evenly spaced points from `a` to
`b` inclusive (`[a]` when `n = 1`, `[]` when `n = 0`). -/
noncomputable def linspace (a b : ℝ) (n : ℕ) : List ℝ :=
  if n = 1 then [a]
  else (List.range n).map (fun (k : ℕ) => a + (k : ℝ) * ((b - a) / ((n : ℝ) - 1)))

/-- Model of `numpy.searchsorted(l, v)` (side `left`) on the sorted grids this
program uses: the first index whose element is not less than `v` (the length
of `l` when every element is less than `v`). -/
noncomputable def searchsorted : List ℝ → ℝ → ℕ
  | [], _ => 0
  | x :: xs, v => if x < v then searchsorted xs v + 1 else 0

/-- Squared-wavelength grid: `lsq = (3e8 / numpy.asarray(freqs)) ** 2`. -/
noncomputable def lsq (cfg : Config) : List ℝ :=
  cfg.freqs.map (fun nu => ((3e8 : ℝ) / nu) ^ 2)

/-- Squared wavelength of channel `f`: entry `f` of `lsq`. -/
noncomputable def lsqAt (cfg : Config) (f : ℕ) : ℝ :=
  ((3e8 : ℝ) / cfg.freqs.getD f 0) ^ 2

/-- Depth grid: `phis = numpy.linspace(min_phi, max_phi, phi_sampling)`. -/
noncomputable def phis (cfg : Config) : List ℝ :=
  linspace cfg.min_phi cfg.max_phi cfg.phi_sampling

/-- Amplitude matrix after `amps[:, 0] = 1`: column 0 is overwritten with 1,
column 1 keeps the uniform draw. -/
def ampsNormed (a : ℕ → Fin 2 → ℝ) : ℕ → Fin 2 → ℝ :=
  fun i p => if p = 0 then 1 else a i p

/-- Amplitude matrix after `amps[simple, 1] = 0`: column 1 of every row
flagged simple is overwritten with 0. -/
def ampsSimplified (s : ℕ → Bool) (a : ℕ → Fin 2 → ℝ) : ℕ → Fin 2 → ℝ :=
  fun i p => if p = 1 ∧ s i = true then 0 else a i p

/-- The `amps` array as returned: uniform draws, then `amps[:, 0] = 1`, then
`amps[simple, 1] = 0`. -/
def amps (dr : Draws) : ℕ → Fin 2 → ℝ :=
  ampsSimplified dr.simpleDraw (ampsNormed dr.ampDraw)

/-- Failure modes of the per-example loop: the explicit
`raise RuntimeError(...)` contract check, and numpy's IndexError when
`fdf_gt[i, idx]` is indexed with `idx` at or beyond `phi_sampling`. -/
inductive Err where
  | runtimeError : Err
  | indexError : Err
deriving DecidableEq

/-- Mutable state of one row `i` inside the loop: the row `spectra[i]` and the
row `fdf_gt[i]`. -/
structure ExState where
  spec : ℕ → ℂ
  fdf : ℕ → ℂ

/-- Rows start as `numpy.zeros`. -/
def initState : ExState := ⟨fun _ => 0, fun _ => 0⟩

/-- Zero initial spectrum row. -/
lemma initState_spec (f : ℕ) : initState.spec f = 0 := rfl

/-- Zero initial FDF row. -/
lemma initState_fdf (d : ℕ) : initState.fdf d = 0 := rfl

/-- Grid index of screen `p` of example `i`:
`idx = phis.searchsorted(depths[i, p])`. -/
noncomputable def idxOf (cfg : Config) (dr : Draws) (i : ℕ) (p : Fin 2) : ℕ :=
  searchsorted (phis cfg) (dr.depth i p)

/-- Contribution of screen `p` to channel `f` of the true spectrum:
`amps[i, p] * numpy.exp(2 * 1j * (phases[i, p] + depths[i, p] * lsq))`. -/
noncomputable def specContrib (cfg : Config) (dr : Draws) (i : ℕ) (p : Fin 2) (f : ℕ) : ℂ :=
  ((amps dr i p : ℝ) : ℂ) *
    Complex.exp (2 * Complex.I *
      (((dr.phase i p : ℝ) : ℂ) + ((dr.depth i p : ℝ) : ℂ) * ((lsqAt cfg f : ℝ) : ℂ)))

/-- Contribution of screen `p` to the true FDF cell it lands on:
`amps[i, p] * numpy.cos(phases[i, p]) + 1j * amps[i, p] * numpy.sin(phases[i, p])`. -/
noncomputable def fdfContrib (dr : Draws) (i : ℕ) (p : Fin 2) : ℂ :=
  ((amps dr i p * Real.cos (dr.phase i p) : ℝ) : ℂ) +
    Complex.I * ((amps dr i p * Real.sin (dr.phase i p) : ℝ) : ℂ)

/-- Body of the inner loop for screen `p` of example `i`: the `p == 1`
contract check (`raise RuntimeError` when a simple example has a nonzero
second amplitude), the accumulation into `spectra[i]`, the sorted search for
the grid index, and the accumulation into `fdf_gt[i, idx]` (an IndexError
when `idx` falls outside the depth grid). -/
noncomputable def screenStep (cfg : Config) (dr : Draws) (i : ℕ) (p : Fin 2)
    (st : ExState) : Except Err ExState :=
  if p = 1 ∧ dr.simpleDraw i = true ∧ amps dr i p ≠ 0 then
    .error .runtimeError
  else
    let spec2 : ℕ → ℂ := fun f => st.spec f + specContrib cfg dr i p f
    let idx := idxOf cfg dr i p
    if idx < cfg.phi_sampling then
      .ok ⟨spec2, fun d => if d = idx then st.fdf d + fdfContrib dr i p else st.fdf d⟩
    else
      .error .indexError

/-- One iteration of the outer loop: screens 0 then 1 of example `i`, starting
from zeroed rows. -/
noncomputable def exampleResult (cfg : Config) (dr : Draws) (i : ℕ) : Except Err ExState :=
  match screenStep cfg dr i 0 initState with
  | .error e => .error e
  | .ok st => screenStep cfg dr i 1 st

/-- The outer loop `for i in range(n)`: succeeds when every example succeeds,
otherwise propagates the first failure. -/
noncomputable def batchLoop (cfg : Config) (dr : Draws) : ℕ → Except Err Unit
  | 0 => .ok ()
  | n + 1 =>
    match batchLoop cfg dr n with
    | .error e => .error e
    | .ok _ =>
      match exampleResult cfg dr n with
      | .error e => .error e
      | .ok _ => .ok ()

/-- Row `i` of the computed `spectra` and `fdf_gt` arrays (meaningful for the
rows the loop completed; zero rows otherwise). -/
noncomputable def rowState (cfg : Config) (dr : Draws) (i : ℕ) : ExState :=
  match exampleResult cfg dr i with
  | .ok st => st
  | .error _ => initState

/-- Type of the external `util_RM.do_rmsynth_planes` collaborator: it receives
the transposed real parts, transposed imaginary parts (with `none` for the
nan-blanked cells), the squared-wavelength grid and the depth grid, and
returns the FDF planes (indexed depth-major, as numpy returns them) together
with the FWHM value that `generate_spectra` discards. -/
def RMSynth : Type :=
  (ℕ → ℕ → Option ℝ) → (ℕ → ℕ → Option ℝ) → List ℝ → List ℝ → ((ℕ → ℕ → ℂ) × ℝ)

/-- Type of the external `scipy.ndimage.gaussian_filter1d` collaborator,
applied along the last axis, i.e. row by row: standard deviation, then one
row, to the smoothed row. -/
def GaussF : Type := ℝ → (ℕ → ℝ) → (ℕ → ℝ)

/-- The result dictionary returned by `generate_spectra`. -/
structure Output where
  depths : ℕ → Fin 2 → ℝ
  amps : ℕ → Fin 2 → ℝ
  simple : ℕ → Bool
  spectra : ℕ → ℕ → ℂ
  spectra_noisy : ℕ → ℕ → Option ℂ
  fdf_gt : ℕ → ℕ → ℂ
  sim_fdf : ℕ → ℕ → ℂ
  targets : ℕ → ℕ → ℂ
  noise : ℕ → ℝ
  dropped_channels : ℕ → ℕ → Bool

/-- The dictionary built on the success path: noisy spectra are
`spectra + noise` (a real-valued noise array added to a complex array) with
the masked cells then blanked to nan, `sim_fdf` is the transposed output of
the external RM-synthesis call on the blanked spectra, and `targets` is
`gaussian_filter1d(fdf_gt.real, sigma=3) + 1j * gaussian_filter1d(fdf_gt.imag, sigma=3)`. -/
noncomputable def mkOutput (cfg : Config) (dr : Draws) (rm : RMSynth) (g : GaussF) : Output :=
  let spectraA : ℕ → ℕ → ℂ := fun i f => (rowState cfg dr i).spec f
  let fdfA : ℕ → ℕ → ℂ := fun i d => (rowState cfg dr i).fdf d
  let noisyA : ℕ → ℕ → Option ℂ := fun i f =>
    if dr.mask i f then none else some (spectraA i f + ((dr.noiseDraw i f : ℝ) : ℂ))
  let rmRes := rm (fun f i => (noisyA i f).map Complex.re)
    (fun f i => (noisyA i f).map Complex.im) (lsq cfg) (phis cfg)
  { depths := dr.depth
    amps := amps dr
    simple := dr.simpleDraw
    spectra := spectraA
    spectra_noisy := noisyA
    fdf_gt := fdfA
    sim_fdf := fun i d => rmRes.1 d i
    targets := fun i d =>
      ((g 3 (fun e => (fdfA i e).re) d : ℝ) : ℂ) +
        Complex.I * ((g 3 (fun e => (fdfA i e).im) d : ℝ) : ℂ)
    noise := dr.sigma
    dropped_channels := dr.mask }

/-- The embedded `generate_spectra`: run the per-example loop over the batch;
on any raised error the call aborts with no output, otherwise it returns the
result dictionary. -/
noncomputable def generate_spectra (cfg : Config) (dr : Draws) (rm : RMSynth)
    (g : GaussF) : Except Err Output :=
  match batchLoop cfg dr cfg.n_spectra with
  | .error e => .error e
  | .ok _ => .ok (mkOutput cfg dr rm g)

/-- Every grid element strictly below the index returned by the sorted search
is strictly less than the query. -/
lemma searchsorted_lt_of_lt (l : List ℝ) (v : ℝ) :
    ∀ j < searchsorted l v, l.getD j 0 < v := by
  induction l with
  | nil => intro j hj; simp [searchsorted] at hj
  | cons x xs ih =>
    intro j hj
    rw [searchsorted] at hj
    by_cases hx : x < v
    · rw [if_pos hx] at hj
      cases j with
      | zero => simpa using hx
      | succ j => simpa using ih j (Nat.lt_of_succ_lt_succ hj)
    · rw [if_neg hx] at hj
      omega

/-- When the index returned by the sorted search is inside the grid, the
element there is not less than the query. -/
lemma searchsorted_ge (l : List ℝ) (v : ℝ) (h : searchsorted l v < l.length) :
    v ≤ l.getD (searchsorted l v) 0 := by
  induction l with
  | nil => simp [searchsorted] at h
  | cons x xs ih =>
    rw [searchsorted] at h ⊢
    by_cases hx : x < v
    · rw [if_pos hx] at h ⊢
      simpa using ih (by simpa using h)
    · rw [if_neg hx] at h ⊢
      simpa using le_of_not_lt hx

/-- The depth grid has length `phi_sampling`. -/
lemma phis_length (cfg : Config) : (phis cfg).length = cfg.phi_sampling := by
  unfold phis linspace
  by_cases h : cfg.phi_sampling = 1
  · rw [if_pos h]; simp [h]
  · rw [if_neg h, List.length_map, List.length_range]

/-- A simple example has second amplitude exactly zero. -/
lemma amps_one_of_simple (dr : Draws) (i : ℕ) (h : dr.simpleDraw i = true) :
    amps dr i 1 = 0 := by
  simp [amps, ampsSimplified, h]

/-- The first amplitude is exactly one, for every row. -/
lemma amps_zero (dr : Draws) (i : ℕ) : amps dr i 0 = 1 := by
  simp [amps, ampsSimplified, ampsNormed]

/-- Elimination form of a successful per-example iteration: the contract check
did not fire, both grid indices are in range, and the resulting rows carry the
accumulated sums of the two screen contributions. -/
lemma exampleResult_ok_elim (cfg : Config) (dr : Draws) (i : ℕ) (st : ExState)
    (h : exampleResult cfg dr i = .ok st) :
    idxOf cfg dr i 0 < cfg.phi_sampling ∧ idxOf cfg dr i 1 < cfg.phi_sampling ∧
    (∀ f, st.spec f = specContrib cfg dr i 0 f + specContrib cfg dr i 1 f) ∧
    (∀ d, st.fdf d =
      (if d = idxOf cfg dr i 0 then fdfContrib dr i 0 else 0) +
      (if d = idxOf cfg dr i 1 then fdfContrib dr i 1 else 0)) := by
  unfold exampleResult at h
  unfold screenStep at h
  rw [if_neg (by simp)] at h
  by_cases h0 : idxOf cfg dr i 0 < cfg.phi_sampling
  · rw [if_pos h0] at h
    simp only [true_and] at h
    by_cases hc : dr.simpleDraw i = true ∧ amps dr i 1 ≠ 0
    · rw [if_pos hc] at h; exact absurd h (by simp)
    · rw [if_neg hc] at h
      by_cases h1 : idxOf cfg dr i 1 < cfg.phi_sampling
      · rw [if_pos h1] at h
        simp only [Except.ok.injEq] at h
        subst h
        refine ⟨h0, h1, fun f => ?_, fun d => ?_⟩
        · simp only [initState_spec, zero_add]
        · simp only
          split_ifs <;> simp only [initState_fdf, zero_add, add_zero]
      · rw [if_neg h1] at h; exact absurd h (by simp)
  · rw [if_neg h0] at h; exact absurd h (by simp)

/-- Introduction form: when the contract check cannot fire and both indices
are in range, the per-example iteration succeeds. -/
lemma exampleResult_isOk (cfg : Config) (dr : Draws) (i : ℕ)
    (hA : ¬(dr.simpleDraw i = true ∧ amps dr i 1 ≠ 0))
    (h0 : idxOf cfg dr i 0 < cfg.phi_sampling)
    (h1 : idxOf cfg dr i 1 < cfg.phi_sampling) :
    ∃ st, exampleResult cfg dr i = .ok st := by
  unfold exampleResult screenStep
  rw [if_neg (by simp)]
  rw [if_pos h0]
  simp only
  rw [if_neg (by simpa using hA)]
  rw [if_pos h1]
  exact ⟨_, rfl⟩

/-- Any error of one screen step is the index error or the fired contract
check. -/
lemma screenStep_error_elim (cfg : Config) (dr : Draws) (i : ℕ) (p : Fin 2)
    (st : ExState) (e : Err) (h : screenStep cfg dr i p st = .error e) :
    e = .indexError ∨
      (e = .runtimeError ∧ p = 1 ∧ dr.simpleDraw i = true ∧ amps dr i p ≠ 0) := by
  unfold screenStep at h
  by_cases hc : p = 1 ∧ dr.simpleDraw i = true ∧ amps dr i p ≠ 0
  · rw [if_pos hc] at h
    simp only [Except.error.injEq] at h
    exact Or.inr ⟨h.symm, hc.1, hc.2.1, hc.2.2⟩
  · rw [if_neg hc] at h
    simp only at h
    by_cases hi : idxOf cfg dr i p < cfg.phi_sampling
    · rw [if_pos hi] at h; exact absurd h (by simp)
    · rw [if_neg hi] at h
      simp only [Except.error.injEq] at h
      exact Or.inl h.symm

/-- The contract check can never fire: zeroing the second amplitude of every
simple example happens before the loop, so any error of the per-example loop
is the index error. -/
lemma exampleResult_error_elim (cfg : Config) (dr : Draws) (i : ℕ) (e : Err)
    (h : exampleResult cfg dr i = .error e) : e = .indexError := by
  have key : ∀ (p : Fin 2) st, screenStep cfg dr i p st = .error e → e = .indexError := by
    intro p st hs
    rcases screenStep_error_elim cfg dr i p st e hs with h1 | ⟨_, hp, hsimp, hne⟩
    · exact h1
    · subst hp
      exact absurd (amps_one_of_simple dr i hsimp) hne
  unfold exampleResult at h
  cases h0 : screenStep cfg dr i 0 initState with
  | error e0 =>
    rw [h0] at h
    simp only [Except.error.injEq] at h
    subst h
    exact key 0 initState h0
  | ok st =>
    rw [h0] at h
    exact key 1 st h

/-- A successful batch loop means every example below the bound succeeded. -/
lemma batchLoop_ok_elim (cfg : Config) (dr : Draws) :
    ∀ n u, batchLoop cfg dr n = .ok u →
      ∀ i < n, ∃ st, exampleResult cfg dr i = .ok st := by
  intro n
  induction n with
  | zero => intro _ _ i hi; omega
  | succ n ih =>
    intro u h i hi
    unfold batchLoop at h
    cases hb : batchLoop cfg dr n with
    | error e => rw [hb] at h; exact absurd h (by simp)
    | ok v =>
      rw [hb] at h
      cases he : exampleResult cfg dr n with
      | error e => rw [he] at h; exact absurd h (by simp)
      | ok st =>
        rcases Nat.lt_succ_iff_lt_or_eq.mp hi with h1 | h1
        · exact ih v hb i h1
        · exact h1 ▸ ⟨st, he⟩

/-- Introduction form of the batch loop: it succeeds when every example
succeeds. -/
lemma batchLoop_isOk (cfg : Config) (dr : Draws) :
    ∀ n, (∀ i < n, ∃ st, exampleResult cfg dr i = .ok st) →
      batchLoop cfg dr n = .ok () := by
  intro n
  induction n with
  | zero => intro _; rfl
  | succ n ih =>
    intro h
    unfold batchLoop
    rw [ih (fun i hi => h i (Nat.lt_succ_of_lt hi))]
    rcases h n (Nat.lt_succ_self n) with ⟨st, hst⟩
    rw [hst]

/-- An error of the batch loop is the index error. -/
lemma batchLoop_error_elim (cfg : Config) (dr : Draws) :
    ∀ n e, batchLoop cfg dr n = .error e → e = .indexError := by
  intro n
  induction n with
  | zero => intro e h; exact absurd h (by simp [batchLoop])
  | succ n ih =>
    intro e h
    unfold batchLoop at h
    cases hb : batchLoop cfg dr n with
    | error e0 =>
      rw [hb] at h
      simp only [Except.error.injEq] at h
      exact h ▸ ih e0 hb
    | ok u =>
      rw [hb] at h
      cases he : exampleResult cfg dr n with
      | error e0 =>
        rw [he] at h
        simp only [Except.error.injEq] at h
        exact h ▸ exampleResult_error_elim cfg dr n e0 he
      | ok st => rw [he] at h; exact absurd h (by simp)

/-- Elimination form of a successful call: the returned dictionary is the one
built by `mkOutput` and the whole loop succeeded. -/
lemma generate_ok_elim (cfg : Config) (dr : Draws) (rm : RMSynth) (g : GaussF)
    (out : Output) (h : generate_spectra cfg dr rm g = .ok out) :
    out = mkOutput cfg dr rm g ∧ ∃ u, batchLoop cfg dr cfg.n_spectra = .ok u := by
  unfold generate_spectra at h
  cases hb : batchLoop cfg dr cfg.n_spectra with
  | error e => rw [hb] at h; exact absurd h (by simp)
  | ok u =>
    rw [hb] at h
    simp only [Except.ok.injEq] at h
    exact ⟨h.symm, u, rfl⟩

/-- Closed form of the rows of a batch whose call succeeded. -/
lemma rowState_closed (cfg : Config) (dr : Draws) (i : ℕ) (st : ExState)
    (he : exampleResult cfg dr i = .ok st) : rowState cfg dr i = st := by
  unfold rowState
  rw [he]

/-- The simplicity flags in the returned dictionary. -/
lemma mkOutput_simple (cfg : Config) (dr : Draws) (rm : RMSynth) (g : GaussF) :
    (mkOutput cfg dr rm g).simple = dr.simpleDraw := rfl

/-- The amplitudes in the returned dictionary. -/
lemma mkOutput_amps (cfg : Config) (dr : Draws) (rm : RMSynth) (g : GaussF) :
    (mkOutput cfg dr rm g).amps = amps dr := rfl

/-- The depths in the returned dictionary. -/
lemma mkOutput_depths (cfg : Config) (dr : Draws) (rm : RMSynth) (g : GaussF) :
    (mkOutput cfg dr rm g).depths = dr.depth := rfl

/-- The true spectra in the returned dictionary. -/
lemma mkOutput_spectra (cfg : Config) (dr : Draws) (rm : RMSynth) (g : GaussF) :
    (mkOutput cfg dr rm g).spectra = fun i f => (rowState cfg dr i).spec f := rfl

/-- The true FDFs in the returned dictionary. -/
lemma mkOutput_fdf_gt (cfg : Config) (dr : Draws) (rm : RMSynth) (g : GaussF) :
    (mkOutput cfg dr rm g).fdf_gt = fun i d => (rowState cfg dr i).fdf d := rfl

/-- The noisy spectra in the returned dictionary: real-valued noise added to
the true spectrum, then the masked cells blanked. -/
lemma mkOutput_noisy (cfg : Config) (dr : Draws) (rm : RMSynth) (g : GaussF) :
    (mkOutput cfg dr rm g).spectra_noisy = fun i f =>
      if dr.mask i f then none
      else some ((rowState cfg dr i).spec f + ((dr.noiseDraw i f : ℝ) : ℂ)) := rfl

/-- The channel mask in the returned dictionary. -/
lemma mkOutput_dropped (cfg : Config) (dr : Draws) (rm : RMSynth) (g : GaussF) :
    (mkOutput cfg dr rm g).dropped_channels = dr.mask := rfl

/-- The smoothed targets in the returned dictionary. -/
lemma mkOutput_targets (cfg : Config) (dr : Draws) (rm : RMSynth) (g : GaussF) :
    (mkOutput cfg dr rm g).targets = fun i d =>
      ((g 3 (fun e => ((rowState cfg dr i).fdf e).re) d : ℝ) : ℂ) +
        Complex.I * ((g 3 (fun e => ((rowState cfg dr i).fdf e).im) d : ℝ) : ℂ) := rfl

/-- Introduction form of a successful call. -/
lemma gen_ok_of (cfg : Config) (dr : Draws) (rm : RMSynth) (g : GaussF)
    (h : ∀ i < cfg.n_spectra, ∃ st, exampleResult cfg dr i = .ok st) :
    generate_spectra cfg dr rm g = .ok (mkOutput cfg dr rm g) := by
  unfold generate_spectra
  rw [batchLoop_isOk cfg dr cfg.n_spectra h]

/-- Trivial RM-synthesis collaborator used in the concrete scenarios. -/
noncomputable def rm0 : RMSynth := fun _ _ _ _ => (fun _ _ => 0, 0)

/-- Identity smoothing collaborator used in the concrete scenarios. -/
def g0 : GaussF := fun _ row => row

/-- Concrete configuration: one example, one channel, depth grid `[0, 1, 2]`. -/
noncomputable def cfg0 : Config :=
  { freqs := [1], n_spectra := 1, min_phi := 0, max_phi := 2, phi_sampling := 3,
    max_noise := 1, phi_padding := 0, complex_fraction := 1/2, drop_channels := 0 }

/-- Concrete draws: a simple example, both depths 0, phases 0, second
amplitude draw 1/2 (about to be zeroed), noise draw 1, no dropped channels. -/
noncomputable def dr0 : Draws :=
  { depth := fun _ _ => 0, ampDraw := fun _ _ => 1/2, simpleDraw := fun _ => true,
    phase := fun _ _ => 0, sigma := fun _ => 1/2, noiseDraw := fun _ _ => 1,
    mask := fun _ _ => false }

/-- Draws of a simple example whose two screens land on distinct grid
indices (depths 0 and 3/2 against the grid `[0, 1, 2]`). -/
noncomputable def dr1 : Draws :=
  { dr0 with depth := fun _ p => if p = 0 then 0 else 3/2 }

/-- Draws of a complex example (second amplitude draw 1/2 kept) whose two
screens land on distinct grid indices. -/
noncomputable def dr2 : Draws :=
  { dr1 with simpleDraw := fun _ => false }

/-- Configuration asking for an empty batch (`n_spectra = 0`). -/
noncomputable def cfg2 : Config := { cfg0 with n_spectra := 0 }

/-- Configuration with an empty depth grid (`phi_sampling = 0`). -/
noncomputable def cfg3 : Config := { cfg0 with phi_sampling := 0 }

/-- The concrete depth grid. -/
lemma phis_cfg0 : phis cfg0 = [0, 1, 2] := by
  unfold phis cfg0 linspace
  rw [if_neg (by norm_num)]
  rw [show List.range 3 = [0, 1, 2] from rfl]
  simp only [List.map]
  norm_num

/-- The empty concrete depth grid. -/
lemma phis_cfg3 : phis cfg3 = [] := by
  unfold phis cfg3 cfg0 linspace
  rw [if_neg (by norm_num)]
  rfl

/-- Both screens of `dr0` land on grid index 0. -/
lemma idx_dr0 (i : ℕ) (p : Fin 2) : idxOf cfg0 dr0 i p = 0 := by
  unfold idxOf
  rw [phis_cfg0, show dr0.depth i p = 0 from rfl]
  rw [searchsorted, if_neg (lt_irrefl 0)]

/-- Screen 0 of `dr1` lands on grid index 0. -/
lemma idx_dr1_0 (i : ℕ) : idxOf cfg0 dr1 i 0 = 0 := by
  unfold idxOf
  rw [phis_cfg0, show dr1.depth i 0 = 0 from by simp [dr1, dr0]]
  rw [searchsorted, if_neg (lt_irrefl 0)]

/-- Screen 1 of `dr1` lands on grid index 2. -/
lemma idx_dr1_1 (i : ℕ) : idxOf cfg0 dr1 i 1 = 2 := by
  unfold idxOf
  rw [phis_cfg0, show dr1.depth i 1 = 3/2 from by simp [dr1, dr0]]
  rw [searchsorted, if_pos (by norm_num)]
  rw [searchsorted, if_pos (by norm_num)]
  rw [searchsorted, if_neg (by norm_num)]

/-- Screen 0 of `dr2` lands on grid index 0. -/
lemma idx_dr2_0 (i : ℕ) : idxOf cfg0 dr2 i 0 = 0 := idx_dr1_0 i

/-- Screen 1 of `dr2` lands on grid index 2. -/
lemma idx_dr2_1 (i : ℕ) : idxOf cfg0 dr2 i 1 = 2 := idx_dr1_1 i

/-- The concrete simple call succeeds. -/
lemma gen0_ok : generate_spectra cfg0 dr0 rm0 g0 = .ok (mkOutput cfg0 dr0 rm0 g0) := by
  apply gen_ok_of
  intro i hi
  apply exampleResult_isOk
  · rintro ⟨hs, hne⟩
    exact hne (amps_one_of_simple dr0 i hs)
  · rw [idx_dr0 i 0]; norm_num [cfg0]
  · rw [idx_dr0 i 1]; norm_num [cfg0]

/-- The concrete simple call with distinct screen indices succeeds. -/
lemma gen1_ok : generate_spectra cfg0 dr1 rm0 g0 = .ok (mkOutput cfg0 dr1 rm0 g0) := by
  apply gen_ok_of
  intro i hi
  apply exampleResult_isOk
  · rintro ⟨hs, hne⟩
    exact hne (amps_one_of_simple dr1 i hs)
  · rw [idx_dr1_0 i]; norm_num [cfg0]
  · rw [idx_dr1_1 i]; norm_num [cfg0]

/-- The concrete complex call with distinct screen indices succeeds. -/
lemma gen2_ok : generate_spectra cfg0 dr2 rm0 g0 = .ok (mkOutput cfg0 dr2 rm0 g0) := by
  apply gen_ok_of
  intro i hi
  apply exampleResult_isOk
  · rintro ⟨hs, hne⟩
    exact absurd hs (by simp [dr2])
  · rw [idx_dr2_0 i]; norm_num [cfg0]
  · rw [idx_dr2_1 i]; norm_num [cfg0]

/-- The empty-batch call succeeds with no validation failure. -/
lemma genEmpty_ok : generate_spectra cfg2 dr0 rm0 g0 = .ok (mkOutput cfg2 dr0 rm0 g0) := by
  apply gen_ok_of
  intro i hi
  exact absurd hi (by simp [cfg2])

/-- With an empty depth grid the first example's sorted search lands out of
range and the call aborts with the index error. -/
lemma gen3_err : generate_spectra cfg3 dr0 rm0 g0 = .error .indexError := by
  have hex : exampleResult cfg3 dr0 0 = .error .indexError := by
    unfold exampleResult screenStep
    rw [if_neg (by simp)]
    rw [if_neg (by rw [show cfg3.phi_sampling = 0 from rfl]; omega)]
  unfold generate_spectra
  rw [show cfg3.n_spectra = 1 from rfl]
  unfold batchLoop
  rw [show batchLoop cfg3 dr0 0 = .ok () from rfl]
  rw [hex]

/-- Case split for the two screens. -/
lemma fin2_cases (p : Fin 2) : p = 0 ∨ p = 1 := by
  rcases p with ⟨v, hv⟩
  interval_cases v
  · exact Or.inl rfl
  · exact Or.inr rfl

/-- Real part of a screen's FDF contribution. -/
lemma fdfContrib_re (dr : Draws) (i : ℕ) (p : Fin 2) :
    (fdfContrib dr i p).re = amps dr i p * Real.cos (dr.phase i p) := by
  simp [fdfContrib, Complex.cos_ofReal_re]

/-- Imaginary part of a screen's FDF contribution. -/
lemma fdfContrib_im (dr : Draws) (i : ℕ) (p : Fin 2) :
    (fdfContrib dr i p).im = amps dr i p * Real.sin (dr.phase i p) := by
  simp [fdfContrib, Complex.sin_ofReal_re]

/-- Magnitude of a screen's FDF contribution is the screen's amplitude. -/
lemma fdfContrib_abs (dr : Draws) (i : ℕ) (p : Fin 2) (h : 0 ≤ amps dr i p) :
    Complex.abs (fdfContrib dr i p) = amps dr i p := by
  rw [Complex.abs_apply, Complex.normSq_apply, fdfContrib_re, fdfContrib_im]
  have key : amps dr i p * Real.cos (dr.phase i p) * (amps dr i p * Real.cos (dr.phase i p)) +
      amps dr i p * Real.sin (dr.phase i p) * (amps dr i p * Real.sin (dr.phase i p)) =
      amps dr i p ^ 2 := by
    have hs := Real.sin_sq_add_cos_sq (dr.phase i p)
    nlinarith [hs]
  rw [key, Real.sqrt_sq h]

/-- A screen's FDF contribution vanishes exactly when its amplitude does. -/
lemma fdfContrib_ne_zero_iff (dr : Draws) (i : ℕ) (p : Fin 2) (h : 0 ≤ amps dr i p) :
    fdfContrib dr i p ≠ 0 ↔ amps dr i p ≠ 0 := by
  rw [← fdfContrib_abs dr i p h]
  constructor
  · intro hne
    simpa using hne
  · intro hne hz
    rw [hz] at hne
    simp at hne

/-- Every amplitude is nonnegative whenever the second uniform draw is. -/
lemma amps_nonneg (dr : Draws) (i : ℕ) (p : Fin 2) (h : 0 ≤ dr.ampDraw i 1) :
    0 ≤ amps dr i p := by
  rcases fin2_cases p with rfl | rfl
  · rw [amps_zero]; norm_num
  · by_cases hs : dr.simpleDraw i = true
    · rw [amps_one_of_simple dr i hs]
    · have hd : amps dr i 1 = dr.ampDraw i 1 := by
        simp [amps, ampsSimplified, ampsNormed, hs]
      rw [hd]; exact h

/-- Closed form of one example of a successful batch: both grid indices are
in range, the true spectrum row is the sum of the two screen contributions,
and the true FDF row holds each screen contribution at its grid index. -/
lemma row_closed_of_ok (cfg : Config) (dr : Draws) (rm : RMSynth) (g : GaussF)
    (i : ℕ) (h : generate_spectra cfg dr rm g = .ok (mkOutput cfg dr rm g))
    (hi : i < cfg.n_spectra) :
    idxOf cfg dr i 0 < cfg.phi_sampling ∧ idxOf cfg dr i 1 < cfg.phi_sampling ∧
    (∀ f, (mkOutput cfg dr rm g).spectra i f =
      specContrib cfg dr i 0 f + specContrib cfg dr i 1 f) ∧
    (∀ d, (mkOutput cfg dr rm g).fdf_gt i d =
      (if d = idxOf cfg dr i 0 then fdfContrib dr i 0 else 0) +
      (if d = idxOf cfg dr i 1 then fdfContrib dr i 1 else 0)) := by
  obtain ⟨-, u, hb⟩ := generate_ok_elim cfg dr rm g (mkOutput cfg dr rm g) h
  obtain ⟨st, hst⟩ := batchLoop_ok_elim cfg dr cfg.n_spectra u hb i hi
  obtain ⟨h0, h1, hspec, hfdf⟩ := exampleResult_ok_elim cfg dr i st hst
  simp only [mkOutput_spectra, mkOutput_fdf_gt, rowState_closed cfg dr i st hst]
  exact ⟨h0, h1, hspec, hfdf⟩

/-- C1 (amended): the noise added by generate_spectra is a single real-valued
Gaussian draw per (example, channel) added to the complex spectrum, so only
the real part is perturbed: every non-dropped entry of the noisy spectrum is
the true value plus the real noise draw, its real part is the true real part
plus the draw, and its imaginary part is left equal to the true imaginary
part. -/
theorem C1_noise_is_real_only (cfg : Config) (dr : Draws) (rm : RMSynth)
    (g : GaussF) (out : Output) (i f : ℕ)
    (h : generate_spectra cfg dr rm g = .ok out)
    (hm : out.dropped_channels i f = false) :
    out.spectra_noisy i f = some (out.spectra i f + ((dr.noiseDraw i f : ℝ) : ℂ)) ∧
    (out.spectra i f + ((dr.noiseDraw i f : ℝ) : ℂ)).im = (out.spectra i f).im ∧
    (out.spectra i f + ((dr.noiseDraw i f : ℝ) : ℂ)).re =
      (out.spectra i f).re + dr.noiseDraw i f := by
  obtain ⟨rfl, -⟩ := generate_ok_elim cfg dr rm g out h
  rw [mkOutput_dropped] at hm
  refine ⟨?_, by simp, by simp⟩
  simp only [mkOutput_noisy, mkOutput_spectra, hm]
  simp

/-- C1 counterexample: in the concrete scenario the channel (0,0) is not
dropped and its noise draw is 1, yet the imaginary part of the noisy
spectrum value equals the true imaginary part: no independent imaginary
noise draw is ever added. -/
theorem C1_counterexample :
    generate_spectra cfg0 dr0 rm0 g0 = .ok (mkOutput cfg0 dr0 rm0 g0) ∧
    (mkOutput cfg0 dr0 rm0 g0).dropped_channels 0 0 = false ∧
    dr0.noiseDraw 0 0 = 1 ∧
    Option.map Complex.im ((mkOutput cfg0 dr0 rm0 g0).spectra_noisy 0 0) =
      some ((mkOutput cfg0 dr0 rm0 g0).spectra 0 0).im := by
  refine ⟨gen0_ok, rfl, rfl, ?_⟩
  simp only [mkOutput_noisy, mkOutput_spectra]
  rw [show dr0.mask 0 0 = false from rfl]
  simp

/-- C1 witness: the concrete non-dropped channel (0,0). -/
theorem C1_witness :
    generate_spectra cfg0 dr0 rm0 g0 = .ok (mkOutput cfg0 dr0 rm0 g0) ∧
    (mkOutput cfg0 dr0 rm0 g0).dropped_channels 0 0 = false ∧
    ((mkOutput cfg0 dr0 rm0 g0).spectra_noisy 0 0 =
      some ((mkOutput cfg0 dr0 rm0 g0).spectra 0 0 + ((dr0.noiseDraw 0 0 : ℝ) : ℂ)) ∧
    ((mkOutput cfg0 dr0 rm0 g0).spectra 0 0 + ((dr0.noiseDraw 0 0 : ℝ) : ℂ)).im =
      ((mkOutput cfg0 dr0 rm0 g0).spectra 0 0).im ∧
    ((mkOutput cfg0 dr0 rm0 g0).spectra 0 0 + ((dr0.noiseDraw 0 0 : ℝ) : ℂ)).re =
      ((mkOutput cfg0 dr0 rm0 g0).spectra 0 0).re + dr0.noiseDraw 0 0) :=
  ⟨gen0_ok, rfl,
    C1_noise_is_real_only cfg0 dr0 rm0 g0 (mkOutput cfg0 dr0 rm0 g0) 0 0 gen0_ok rfl⟩

/-- C2 (amended): generate_spectra performs no up-front configuration
validation; in particular a non-positive batch size is not rejected: with
`n_spectra = 0` the call succeeds and returns the (empty) result dictionary
rather than failing. -/
theorem C2_no_upfront_validation (cfg : Config) (dr : Draws) (rm : RMSynth)
    (g : GaussF) (h : cfg.n_spectra = 0) :
    generate_spectra cfg dr rm g = .ok (mkOutput cfg dr rm g) := by
  apply gen_ok_of
  intro i hi
  rw [h] at hi
  omega

/-- C2 counterexample: an otherwise fully valid configuration with the
non-positive batch size `n_spectra = 0` is not rejected: the call returns a
successful (empty) result dictionary instead of failing. -/
theorem C2_counterexample :
    cfg2.n_spectra = 0 ∧ cfg2.freqs ≠ [] ∧ 0 < cfg2.phi_sampling ∧
    generate_spectra cfg2 dr0 rm0 g0 = .ok (mkOutput cfg2 dr0 rm0 g0) := by
  refine ⟨rfl, ?_, ?_, genEmpty_ok⟩
  · simp [cfg2, cfg0]
  · norm_num [cfg2, cfg0]

/-- C2 witness: the empty-batch configuration. -/
theorem C2_witness :
    cfg2.n_spectra = 0 ∧
    generate_spectra cfg2 dr2 rm0 g0 = .ok (mkOutput cfg2 dr2 rm0 g0) :=
  ⟨rfl, C2_no_upfront_validation cfg2 dr2 rm0 g0 rfl⟩

/-- C3: for every generated example, a true simplicity flag implies the
second-screen amplitude is exactly zero. -/
theorem C3_simple_second_amp_zero (cfg : Config) (dr : Draws) (rm : RMSynth)
    (g : GaussF) (out : Output) (i : ℕ)
    (h : generate_spectra cfg dr rm g = .ok out) (hi : i < cfg.n_spectra)
    (hs : out.simple i = true) : out.amps i 1 = 0 := by
  obtain ⟨rfl, -⟩ := generate_ok_elim cfg dr rm g out h
  rw [mkOutput_simple] at hs
  rw [mkOutput_amps]
  exact amps_one_of_simple dr i hs

/-- C3 witness: the concrete simple example. -/
theorem C3_witness :
    generate_spectra cfg0 dr0 rm0 g0 = .ok (mkOutput cfg0 dr0 rm0 g0) ∧
    0 < cfg0.n_spectra ∧ (mkOutput cfg0 dr0 rm0 g0).simple 0 = true ∧
    (mkOutput cfg0 dr0 rm0 g0).amps 0 1 = 0 :=
  ⟨gen0_ok, by norm_num [cfg0], rfl,
    C3_simple_second_amp_zero cfg0 dr0 rm0 g0 (mkOutput cfg0 dr0 rm0 g0) 0 gen0_ok
      (by norm_num [cfg0]) rfl⟩

/-- C9: the first-screen amplitude of every generated example is exactly
one, independent of all draws. -/
theorem C9_first_amp_is_one (cfg : Config) (dr : Draws) (rm : RMSynth)
    (g : GaussF) (out : Output) (i : ℕ)
    (h : generate_spectra cfg dr rm g = .ok out) (hi : i < cfg.n_spectra) :
    out.amps i 0 = 1 := by
  obtain ⟨rfl, -⟩ := generate_ok_elim cfg dr rm g out h
  rw [mkOutput_amps]
  exact amps_zero dr i

/-- C9 witness: the concrete example. -/
theorem C9_witness :
    generate_spectra cfg0 dr0 rm0 g0 = .ok (mkOutput cfg0 dr0 rm0 g0) ∧
    0 < cfg0.n_spectra ∧ (mkOutput cfg0 dr0 rm0 g0).amps 0 0 = 1 :=
  ⟨gen0_ok, by norm_num [cfg0],
    C9_first_amp_is_one cfg0 dr0 rm0 g0 (mkOutput cfg0 dr0 rm0 g0) 0 gen0_ok
      (by norm_num [cfg0])⟩

/-- C10: the RuntimeError contract check is unreachable: since the second
amplitude of every simple example is zeroed before the loop, every error the
embedded generate_spectra can raise, over all configurations and all draw
sequences, is the index error, never the RuntimeError. -/
theorem C10_contract_check_unreachable (cfg : Config) (dr : Draws)
    (rm : RMSynth) (g : GaussF) (e : Err)
    (h : generate_spectra cfg dr rm g = .error e) : e = .indexError := by
  unfold generate_spectra at h
  cases hb : batchLoop cfg dr cfg.n_spectra with
  | error e0 =>
    rw [hb] at h
    simp only [Except.error.injEq] at h
    exact h ▸ batchLoop_error_elim cfg dr cfg.n_spectra e0 hb
  | ok u => rw [hb] at h; exact absurd h (by simp)

/-- C10 witness: the one failing concrete call (empty depth grid) fails with
the index error. -/
theorem C10_witness :
    generate_spectra cfg3 dr0 rm0 g0 = .error .indexError ∧
    Err.indexError = Err.indexError :=
  ⟨gen3_err, C10_contract_check_unreachable cfg3 dr0 rm0 g0 .indexError gen3_err⟩

/-- C5: the true complex spectrum of every generated example is the sum over
the two screens of amplitude times exp(2i (phase + depth * lsq[f])), where
lsq[f] = (3e8 / freqs[f])^2 is the squared wavelength of channel f (3e8
being the speed-of-light constant the source uses). -/
theorem C5_true_spectrum_formula (cfg : Config) (dr : Draws) (rm : RMSynth)
    (g : GaussF) (out : Output) (i f : ℕ)
    (h : generate_spectra cfg dr rm g = .ok out)
    (hi : i < cfg.n_spectra) (hf : f < cfg.freqs.length) :
    out.spectra i f =
      ∑ p : Fin 2, ((out.amps i p : ℝ) : ℂ) *
        Complex.exp (2 * Complex.I * (((dr.phase i p : ℝ) : ℂ) +
          ((out.depths i p : ℝ) : ℂ) *
            ((((3e8 : ℝ) / cfg.freqs.getD f 0) ^ 2 : ℝ) : ℂ))) := by
  obtain ⟨rfl, -⟩ := generate_ok_elim cfg dr rm g out h
  obtain ⟨-, -, hspec, -⟩ := row_closed_of_ok cfg dr rm g i h hi
  rw [hspec f, Fin.sum_univ_two]
  rfl

/-- C5 witness: the concrete example and channel. -/
theorem C5_witness :
    generate_spectra cfg0 dr0 rm0 g0 = .ok (mkOutput cfg0 dr0 rm0 g0) ∧
    0 < cfg0.n_spectra ∧ 0 < cfg0.freqs.length ∧
    (mkOutput cfg0 dr0 rm0 g0).spectra 0 0 =
      ∑ p : Fin 2, (((mkOutput cfg0 dr0 rm0 g0).amps 0 p : ℝ) : ℂ) *
        Complex.exp (2 * Complex.I * (((dr0.phase 0 p : ℝ) : ℂ) +
          (((mkOutput cfg0 dr0 rm0 g0).depths 0 p : ℝ) : ℂ) *
            ((((3e8 : ℝ) / cfg0.freqs.getD 0 0) ^ 2 : ℝ) : ℂ))) :=
  ⟨gen0_ok, by norm_num [cfg0], by norm_num [cfg0],
    C5_true_spectrum_formula cfg0 dr0 rm0 g0 (mkOutput cfg0 dr0 rm0 g0) 0 0 gen0_ok
      (by norm_num [cfg0]) (by norm_num [cfg0])⟩

/-- C6: dropout is applied after noise and unconditionally overrides it:
masked cells of the noisy spectrum are the missing marker no matter what the
noise draw was, unmasked cells are the true value plus the noise draw, and
when drop_channels = 1 every Bernoulli mask draw is true so every cell is
missing. -/
theorem C6_dropout_overrides_noise (cfg : Config) (dr : Draws) (rm : RMSynth)
    (g : GaussF) (out : Output) (i f : ℕ)
    (h : generate_spectra cfg dr rm g = .ok out)
    (hi : i < cfg.n_spectra) (hf : f < cfg.freqs.length) :
    (out.dropped_channels i f = true → out.spectra_noisy i f = none) ∧
    (out.dropped_channels i f = false →
      out.spectra_noisy i f = some (out.spectra i f + ((dr.noiseDraw i f : ℝ) : ℂ))) ∧
    (cfg.drop_channels = 1 → maskSupport cfg dr → out.spectra_noisy i f = none) := by
  obtain ⟨rfl, -⟩ := generate_ok_elim cfg dr rm g out h
  simp only [mkOutput_dropped, mkOutput_noisy, mkOutput_spectra]
  refine ⟨fun hm => by simp [hm], fun hm => by simp [hm], fun hp hs => ?_⟩
  cases hmv : dr.mask i f with
  | false => exact absurd (hs i f hmv) (by rw [hp]; exact lt_irrefl 1)
  | true => simp [hmv]

/-- C6 witness: the concrete example and channel. -/
theorem C6_witness :
    generate_spectra cfg0 dr0 rm0 g0 = .ok (mkOutput cfg0 dr0 rm0 g0) ∧
    0 < cfg0.n_spectra ∧ 0 < cfg0.freqs.length ∧
    (((mkOutput cfg0 dr0 rm0 g0).dropped_channels 0 0 = true →
      (mkOutput cfg0 dr0 rm0 g0).spectra_noisy 0 0 = none) ∧
    ((mkOutput cfg0 dr0 rm0 g0).dropped_channels 0 0 = false →
      (mkOutput cfg0 dr0 rm0 g0).spectra_noisy 0 0 =
        some ((mkOutput cfg0 dr0 rm0 g0).spectra 0 0 + ((dr0.noiseDraw 0 0 : ℝ) : ℂ))) ∧
    (cfg0.drop_channels = 1 → maskSupport cfg0 dr0 →
      (mkOutput cfg0 dr0 rm0 g0).spectra_noisy 0 0 = none)) :=
  ⟨gen0_ok, by norm_num [cfg0], by norm_num [cfg0],
    C6_dropout_overrides_noise cfg0 dr0 rm0 g0 (mkOutput cfg0 dr0 rm0 g0) 0 0 gen0_ok
      (by norm_num [cfg0]) (by norm_num [cfg0])⟩

/-- C7: when both screens of an example land on the same depth-grid index,
the true FDF value there is the complex sum of the two screen contributions:
the amplitudes-times-cosines add in the real part and the
amplitudes-times-sines add in the imaginary part. -/
theorem C7_same_index_additive (cfg : Config) (dr : Draws) (rm : RMSynth)
    (g : GaussF) (out : Output) (i k : ℕ)
    (h : generate_spectra cfg dr rm g = .ok out) (hi : i < cfg.n_spectra)
    (h0 : idxOf cfg dr i 0 = k) (h1 : idxOf cfg dr i 1 = k) :
    out.fdf_gt i k =
      ((out.amps i 0 * Real.cos (dr.phase i 0) +
        out.amps i 1 * Real.cos (dr.phase i 1) : ℝ) : ℂ) +
      Complex.I * ((out.amps i 0 * Real.sin (dr.phase i 0) +
        out.amps i 1 * Real.sin (dr.phase i 1) : ℝ) : ℂ) := by
  obtain ⟨rfl, -⟩ := generate_ok_elim cfg dr rm g out h
  obtain ⟨-, -, -, hfdf⟩ := row_closed_of_ok cfg dr rm g i h hi
  rw [mkOutput_amps]
  rw [hfdf k, if_pos h0.symm, if_pos h1.symm]
  unfold fdfContrib
  push_cast
  ring

/-- C7 witness: the concrete example whose two screens share grid index 0. -/
theorem C7_witness :
    generate_spectra cfg0 dr0 rm0 g0 = .ok (mkOutput cfg0 dr0 rm0 g0) ∧
    0 < cfg0.n_spectra ∧ idxOf cfg0 dr0 0 0 = 0 ∧ idxOf cfg0 dr0 0 1 = 0 ∧
    (mkOutput cfg0 dr0 rm0 g0).fdf_gt 0 0 =
      (((mkOutput cfg0 dr0 rm0 g0).amps 0 0 * Real.cos (dr0.phase 0 0) +
        (mkOutput cfg0 dr0 rm0 g0).amps 0 1 * Real.cos (dr0.phase 0 1) : ℝ) : ℂ) +
      Complex.I * (((mkOutput cfg0 dr0 rm0 g0).amps 0 0 * Real.sin (dr0.phase 0 0) +
        (mkOutput cfg0 dr0 rm0 g0).amps 0 1 * Real.sin (dr0.phase 0 1) : ℝ) : ℂ) :=
  ⟨gen0_ok, by norm_num [cfg0], idx_dr0 0 0, idx_dr0 0 1,
    C7_same_index_additive cfg0 dr0 rm0 g0 (mkOutput cfg0 dr0 rm0 g0) 0 0 gen0_ok
      (by norm_num [cfg0]) (idx_dr0 0 0) (idx_dr0 0 1)⟩

/-- C8: the smoothed target FDF of every generated example is the Gaussian
filter with the fixed standard deviation 3 applied independently to the real
and imaginary parts of the true FDF row and recombined; the width 3 is a
literal of the call, not a parameter. -/
theorem C8_targets_gaussian_sigma3 (cfg : Config) (dr : Draws) (rm : RMSynth)
    (g : GaussF) (out : Output) (i d : ℕ)
    (h : generate_spectra cfg dr rm g = .ok out)
    (hi : i < cfg.n_spectra) (hd : d < cfg.phi_sampling) :
    out.targets i d =
      ((g 3 (fun e => (out.fdf_gt i e).re) d : ℝ) : ℂ) +
        Complex.I * ((g 3 (fun e => (out.fdf_gt i e).im) d : ℝ) : ℂ) := by
  obtain ⟨rfl, -⟩ := generate_ok_elim cfg dr rm g out h
  rfl

/-- C8 witness: the concrete example and depth cell. -/
theorem C8_witness :
    generate_spectra cfg0 dr0 rm0 g0 = .ok (mkOutput cfg0 dr0 rm0 g0) ∧
    0 < cfg0.n_spectra ∧ 0 < cfg0.phi_sampling ∧
    (mkOutput cfg0 dr0 rm0 g0).targets 0 0 =
      ((g0 3 (fun e => ((mkOutput cfg0 dr0 rm0 g0).fdf_gt 0 e).re) 0 : ℝ) : ℂ) +
        Complex.I *
          ((g0 3 (fun e => ((mkOutput cfg0 dr0 rm0 g0).fdf_gt 0 e).im) 0 : ℝ) : ℂ) :=
  ⟨gen0_ok, by norm_num [cfg0], by norm_num [cfg0],
    C8_targets_gaussian_sigma3 cfg0 dr0 rm0 g0 (mkOutput cfg0 dr0 rm0 g0) 0 0 gen0_ok
      (by norm_num [cfg0]) (by norm_num [cfg0])⟩

/-- C4 (amended): each screen's FDF contribution is placed at the first
depth-grid index not less than the screen's depth (the sorted-search index):
every element strictly before that index is below the depth and the element
at it is not.  When additionally the two screens land on distinct indices AND
the second amplitude is nonzero (amendment: a simple example has second
amplitude zero and then only one entry is nonzero), the true FDF row is
nonzero exactly at the two indices and the magnitudes there equal the two
amplitudes. -/
theorem C4_fdf_placement (cfg : Config) (dr : Draws) (rm : RMSynth) (g : GaussF)
    (out : Output) (i : ℕ)
    (h : generate_spectra cfg dr rm g = .ok out) (hi : i < cfg.n_spectra)
    (hnn : (0 : ℝ) ≤ dr.ampDraw i 1)
    (hne : idxOf cfg dr i 0 ≠ idxOf cfg dr i 1)
    (ha : out.amps i 1 ≠ 0) :
    (∀ d, out.fdf_gt i d =
      (if d = idxOf cfg dr i 0 then fdfContrib dr i 0 else 0) +
      (if d = idxOf cfg dr i 1 then fdfContrib dr i 1 else 0)) ∧
    (∀ p : Fin 2,
      (∀ j < idxOf cfg dr i p, (phis cfg).getD j 0 < dr.depth i p) ∧
      dr.depth i p ≤ (phis cfg).getD (idxOf cfg dr i p) 0) ∧
    (∀ d, out.fdf_gt i d ≠ 0 ↔ (d = idxOf cfg dr i 0 ∨ d = idxOf cfg dr i 1)) ∧
    Complex.abs (out.fdf_gt i (idxOf cfg dr i 0)) = out.amps i 0 ∧
    Complex.abs (out.fdf_gt i (idxOf cfg dr i 1)) = out.amps i 1 := by
  obtain ⟨rfl, -⟩ := generate_ok_elim cfg dr rm g out h
  obtain ⟨h0, h1, -, hfdf⟩ := row_closed_of_ok cfg dr rm g i h hi
  rw [mkOutput_amps] at ha ⊢
  have habs : ∀ p : Fin 2, Complex.abs (fdfContrib dr i p) = amps dr i p :=
    fun p => fdfContrib_abs dr i p (amps_nonneg dr i p hnn)
  have hc0 : fdfContrib dr i 0 ≠ 0 := by
    rw [fdfContrib_ne_zero_iff dr i 0 (amps_nonneg dr i 0 hnn), amps_zero]
    exact one_ne_zero
  have hc1 : fdfContrib dr i 1 ≠ 0 := by
    rw [fdfContrib_ne_zero_iff dr i 1 (amps_nonneg dr i 1 hnn)]
    exact ha
  refine ⟨hfdf, fun p => ?_, fun d => ?_, ?_, ?_⟩
  · constructor
    · intro j hj
      exact searchsorted_lt_of_lt (phis cfg) (dr.depth i p) j hj
    · apply searchsorted_ge
      rw [phis_length]
      rcases fin2_cases p with rfl | rfl
      · exact h0
      · exact h1
  · rw [hfdf d]
    by_cases hd0 : d = idxOf cfg dr i 0
    · rw [if_pos hd0, if_neg (fun hd1 => hne (hd0.symm.trans hd1)), add_zero]
      exact ⟨fun _ => Or.inl hd0, fun _ => hc0⟩
    · rw [if_neg hd0]
      by_cases hd1 : d = idxOf cfg dr i 1
      · rw [if_pos hd1, zero_add]
        exact ⟨fun _ => Or.inr hd1, fun _ => hc1⟩
      · rw [if_neg hd1, add_zero]
        exact ⟨fun hz => absurd rfl hz, fun hd => by
          rcases hd with hd | hd
          · exact absurd hd hd0
          · exact absurd hd hd1⟩
  · rw [hfdf (idxOf cfg dr i 0), if_pos rfl, if_neg hne, add_zero]
    exact habs 0
  · rw [hfdf (idxOf cfg dr i 1), if_neg (fun hcon => hne hcon.symm), if_pos rfl,
      zero_add]
    exact habs 1

/-- C4 counterexample: a simple example (second amplitude forced to zero)
whose two screens land on the distinct grid indices 0 and 2 of the length-3
depth grid, yet whose true FDF row has exactly one nonzero entry, not two:
cell 0 is nonzero and cells 1 and 2 are zero. -/
theorem C4_counterexample :
    generate_spectra cfg0 dr1 rm0 g0 = .ok (mkOutput cfg0 dr1 rm0 g0) ∧
    cfg0.phi_sampling = 3 ∧
    (mkOutput cfg0 dr1 rm0 g0).simple 0 = true ∧
    idxOf cfg0 dr1 0 0 = 0 ∧ idxOf cfg0 dr1 0 1 = 2 ∧
    (mkOutput cfg0 dr1 rm0 g0).fdf_gt 0 0 ≠ 0 ∧
    (mkOutput cfg0 dr1 rm0 g0).fdf_gt 0 1 = 0 ∧
    (mkOutput cfg0 dr1 rm0 g0).fdf_gt 0 2 = 0 := by
  have hfdf := (row_closed_of_ok cfg0 dr1 rm0 g0 0 gen1_ok (by norm_num [cfg0])).2.2.2
  have hc0 : fdfContrib dr1 0 0 = 1 := by
    unfold fdfContrib
    rw [amps_zero, show dr1.phase 0 0 = 0 from rfl]
    simp
  have hc1 : fdfContrib dr1 0 1 = 0 := by
    unfold fdfContrib
    rw [amps_one_of_simple dr1 0 rfl]
    simp
  refine ⟨gen1_ok, rfl, rfl, idx_dr1_0 0, idx_dr1_1 0, ?_, ?_, ?_⟩
  · rw [hfdf 0, idx_dr1_0 0, idx_dr1_1 0, if_pos rfl, if_neg (by omega), add_zero,
      hc0]
    exact one_ne_zero
  · rw [hfdf 1, idx_dr1_0 0, idx_dr1_1 0, if_neg (by omega), if_neg (by omega),
      add_zero]
  · rw [hfdf 2, idx_dr1_0 0, idx_dr1_1 0, if_neg (by omega), if_pos rfl, zero_add,
      hc1]

/-- C4 witness: the concrete complex example with distinct screen indices. -/
theorem C4_witness :
    generate_spectra cfg0 dr2 rm0 g0 = .ok (mkOutput cfg0 dr2 rm0 g0) ∧
    0 < cfg0.n_spectra ∧ (0 : ℝ) ≤ dr2.ampDraw 0 1 ∧
    idxOf cfg0 dr2 0 0 ≠ idxOf cfg0 dr2 0 1 ∧
    (mkOutput cfg0 dr2 rm0 g0).amps 0 1 ≠ 0 ∧
    Complex.abs ((mkOutput cfg0 dr2 rm0 g0).fdf_gt 0 (idxOf cfg0 dr2 0 0)) =
      (mkOutput cfg0 dr2 rm0 g0).amps 0 0 ∧
    Complex.abs ((mkOutput cfg0 dr2 rm0 g0).fdf_gt 0 (idxOf cfg0 dr2 0 1)) =
      (mkOutput cfg0 dr2 rm0 g0).amps 0 1 := by
  have hne : idxOf cfg0 dr2 0 0 ≠ idxOf cfg0 dr2 0 1 := by
    rw [idx_dr2_0 0, idx_dr2_1 0]
    omega
  have ha : (mkOutput cfg0 dr2 rm0 g0).amps 0 1 ≠ 0 := by
    rw [mkOutput_amps]
    rw [show amps dr2 0 1 = dr2.ampDraw 0 1 from by
      simp [amps, ampsSimplified, ampsNormed, dr2]]
    rw [show dr2.ampDraw 0 1 = 1/2 from rfl]
    norm_num
  have hnn : (0 : ℝ) ≤ dr2.ampDraw 0 1 := by
    rw [show dr2.ampDraw 0 1 = 1/2 from rfl]
    norm_num
  have hmain := C4_fdf_placement cfg0 dr2 rm0 g0 (mkOutput cfg0 dr2 rm0 g0) 0
    gen2_ok (by norm_num [cfg0]) hnn hne ha
  exact ⟨gen2_ok, by norm_num [cfg0], hnn, hne, ha, hmain.2.2.2.1, hmain.2.2.2.2⟩

end FaradaySpectra
